import Mathlib

/-!
Verification of the SuiGraph security-scanner core against its specification.

The definitions below are a shallow embedding of the JavaScript sources:
  - `securityScanner.js` (src/unnamed/part_005, class SecurityScanner),
  - `llmEnhancedSecurityScanner.js` (src/unnamed/part_005, class LLMEnhancedSecurityScanner),
  - `enhancedSecurityScanner.js` (class EnhancedSecurityScanner, taint analysis),
  - `wasmBridge.js` (class MoveParser),
  - the parse loop of `routes/analyze.js`.

JavaScript strings are modelled as Lean `String` (code points; all inputs of
interest are ASCII so UTF-16 lengths and code-point lengths agree).  JavaScript
regular expressions used by the scanner are simple enough that each one is
implemented as an explicit scanning function with the same leftmost-match,
alternation-order and greedy semantics; each implementation carries a comment
naming the regex it embeds.  Mutable state (the taint set) is threaded
explicitly.  Floating-point token estimates `line.length * 0.25 > 1500` are
exact on dyadic rationals, so they are modelled by the equivalent integer
comparison `chars > 6000`.
-/

namespace Suigraph

/-! ### JavaScript string primitives -/

/-- The characters matched by the JavaScript `\s` class (ASCII part). -/
def isJsSpace (c : Char) : Bool :=
  c = ' ' || c = '\t' || c = '\n' || c = '\r' || c = '\x0b' || c = '\x0c'

/-- `[A-Za-z_]`, the first character of an identifier in the scanner regexes. -/
def isWordStart (c : Char) : Bool := c.isAlpha || c = '_'

/-- `[A-Za-z0-9_]`, the JavaScript `\w` class. -/
def isWordChar (c : Char) : Bool := c.isAlphanum || c = '_'

/-- First index at which `pat` occurs in `cs` (JavaScript `String.indexOf`). -/
def idxOfAux (pat : List Char) : List Char → Nat → Option Nat
  | [], i => if pat = [] then some i else none
  | c :: rest, i =>
    if pat.isPrefixOf (c :: rest) then some i else idxOfAux pat rest (i + 1)

/-- JavaScript `s.indexOf(pat)`, with `none` standing for `-1`. -/
def strIndexOf (s pat : String) : Option Nat := idxOfAux pat.data s.data 0

/-- JavaScript `s.includes(pat)`. -/
def strContains (s pat : String) : Bool := (strIndexOf s pat).isSome

/-- Splitting on a non-empty separator; fuel-driven so that it reduces in the
kernel.  `splitOnStrGo sep fuel cs` equals JavaScript `cs.split(sep)` whenever
`fuel ≥ cs.length` and `sep ≠ []`. -/
def splitOnStrGo (sep : List Char) : Nat → List Char → List (List Char)
  | _, [] => [[]]
  | 0, cs => [cs]
  | fuel + 1, c :: rest =>
    if sep ≠ [] ∧ sep.isPrefixOf (c :: rest) then
      [] :: splitOnStrGo sep fuel ((c :: rest).drop sep.length)
    else
      match splitOnStrGo sep fuel rest with
      | h :: t => (c :: h) :: t
      | [] => [[c]]

/-- JavaScript `s.split(sep)` for non-empty `sep`. -/
def jsSplit (s sep : String) : List String :=
  (splitOnStrGo sep.data s.data.length s.data).map String.mk

/-- JavaScript `String.trim` (whitespace stripped from both ends). -/
def jsTrim (s : String) : String :=
  String.mk (((s.data.dropWhile isJsSpace).reverse.dropWhile isJsSpace).reverse)

/-- JavaScript `String.toLowerCase` (ASCII). -/
def jsToLower (s : String) : String := String.mk (s.data.map Char.toLower)

/-- JavaScript `Array.join(sep)`. -/
def jsJoin (sep : String) : List String → String
  | [] => ""
  | h :: t => t.foldl (fun acc p => acc ++ sep ++ p) h

/-- Number of newline characters in the first `idx` characters; used by
`getLineNumber` / `getLineOfMatch` which count `split('\n').length`. -/
def newlinesBefore (s : String) (idx : Nat) : Nat :=
  (s.data.take idx).count '\n'

/-- Run a position matcher over every suffix, left to right: the leftmost
match wins, exactly like a JavaScript global regex search. -/
def firstMatchAux {α : Type} (f : List Char → Option α) : List Char → Option α
  | [] => none
  | c :: rest =>
    match f (c :: rest) with
    | some a => some a
    | none => firstMatchAux f rest

/-- Literal-alternation matcher at one position: tries each alternative in
order and returns the first that is a prefix, like `a|b|c` in a regex. -/
def matchLitAltsAt (alts : List String) (s : List Char) : Option String :=
  alts.findSome? fun a => if a.data.isPrefixOf s then some a else none

/-- Leftmost match of a literal alternation in `content`. -/
def firstLitAlts (alts : List String) (content : String) : Option String :=
  firstMatchAux (matchLitAltsAt alts) content.data

/-! ### Common data model

`Finding` carries every field the JavaScript vulnerability objects use.  The
JavaScript property `match` is spelled `matched` (Lean keyword); fields a given
engine does not set are the empty string.  Lines are `Int` because the
semantic analyzer can produce non-positive adjusted lines (see C9). -/

structure Finding where
  id : String
  name : String
  severity : String
  description : String
  file : String
  line : Int
  code : String
  matched : String
  recommendation : String
  confidence : String
  source : String
deriving DecidableEq, Repr

/-- Finding constructor for the static rules, which never set `source`. -/
def mkF (id nm sev desc file : String) (line : Int)
    (code matched rec conf : String) : Finding :=
  ⟨id, nm, sev, desc, file, line, code, matched, rec, conf, ""⟩

namespace SecurityScanner

/-! ### securityScanner.js — extraction

`extractFunctionBlocks` embeds the global regex
`(?:public\s+)?(?:entry\s+)?fun\s+([a-zA-Z_][a-zA-Z0-9_]*)\s*\(([^)]*)\)[^{]*\{`
together with `findMatchingBrace` depth counting. -/

/-- A file handed to the scanner: `parseError` is truthiness of the JavaScript
`file.parseError` field. -/
structure SrcFile where
  name : String
  content : String
  parseError : Bool
deriving DecidableEq, Repr

/-- One entry of the list built by `extractFunctionBlocks`. -/
structure FunctionBlock where
  name : String
  signature : String
  content : String
  parameters : List String
  startLine : Nat
  startIndex : Nat
  endIndex : Nat
deriving DecidableEq, Repr

/-- Consume a literal, or fail. -/
def dropLit (lit s : List Char) : Option (List Char) :=
  if lit.isPrefixOf s then some (s.drop lit.length) else none

/-- Consume `\s+` (at least one JavaScript whitespace character, greedy). -/
def dropSpaces1 (s : List Char) : Option (List Char) :=
  match s with
  | [] => none
  | c :: rest => if isJsSpace c then some (rest.dropWhile isJsSpace) else none

/-- Consume `[a-zA-Z_][a-zA-Z0-9_]*` (greedy), returning the identifier. -/
def takeName (s : List Char) : Option (String × List Char) :=
  match s with
  | [] => none
  | c :: rest =>
    if isWordStart c then
      some (String.mk (c :: rest.takeWhile isWordChar), rest.dropWhile isWordChar)
    else none

/-- The mandatory tail `fun\s+name\s*\(([^)]*)\)[^{]*\{` of the function-header
regex; returns `(remaining, name, parameters text)`. -/
def matchFunCore (s : List Char) : Option (List Char × String × String) := do
  let s1 ← dropLit "fun".data s
  let s2 ← dropSpaces1 s1
  let (name, s3) ← takeName s2
  let s4 := s3.dropWhile isJsSpace
  let s5 ← dropLit "(".data s4
  let params := s5.takeWhile (fun c => c ≠ ')')
  let s6 ← dropLit ")".data (s5.dropWhile (fun c => c ≠ ')'))
  let s7 ← dropLit "\x7b".data (s6.dropWhile (fun c => c ≠ '\x7b'))
  return (s7, name, String.mk params)

/-- Full function-header regex at one position.  The optional groups
`(?:public\s+)?(?:entry\s+)?` are greedy, so the alternatives are tried in the
order public+entry, public, entry, bare. -/
def matchFunHeader (s : List Char) : Option (List Char × String × String) :=
  (do
    let s1 ← dropLit "public".data s
    let s2 ← dropSpaces1 s1
    (do
      let s3 ← dropLit "entry".data s2
      let s4 ← dropSpaces1 s3
      matchFunCore s4) <|> matchFunCore s2)
  <|> (do
    let s1 ← dropLit "entry".data s
    let s2 ← dropSpaces1 s1
    matchFunCore s2)
  <|> matchFunCore s

/-- Raw data of one regex match: start index, matched length, captures. -/
structure RawFunMatch where
  startIndex : Nat
  length : Nat
  fname : String
  params : String
deriving DecidableEq, Repr

/-- Global scan: repeated `exec` with `lastIndex` advancing past each match.
`fuel` bounds the recursion; every step consumes at least one character, so
`fuel = s.length` is exact. -/
def scanFunHeaders : Nat → List Char → Nat → List RawFunMatch
  | 0, _, _ => []
  | _ + 1, [], _ => []
  | fuel + 1, c :: rest, i =>
    match matchFunHeader (c :: rest) with
    | some (rem, name, params) =>
      let len := (c :: rest).length - rem.length
      ⟨i, len, name, params⟩ :: scanFunHeaders fuel rem (i + len)
    | none => scanFunHeaders fuel rest (i + 1)

/-- `findMatchingBrace(content, startIndex)`: depth counting from just after
the opening brace; `none` is the JavaScript `-1`. -/
def findMBGo : List Char → Nat → Nat → Option Nat
  | [], _, _ => none
  | c :: rest, i, depth =>
    let depth1 := if c = '\x7b' then depth + 1 else if c = '\x7d' then depth - 1 else depth
    if depth1 = 0 then some i else findMBGo rest (i + 1) depth1

def findMatchingBrace (content : String) (startIndex : Nat) : Option Nat :=
  findMBGo (content.data.drop (startIndex + 1)) (startIndex + 1) 1

/-- `getLineNumber(content, index)`: 1-based line of a character index. -/
def getLineNumber (content : String) (index : Nat) : Nat :=
  newlinesBefore content index + 1

/-- `content.substring(a, b)` (half-open, clamped like JavaScript). -/
def jsSubstring (content : String) (a b : Nat) : String :=
  String.mk ((content.data.drop a).take (b - a))

/-- Assemble one `FunctionBlock` from a raw match, skipping it (like the
JavaScript `if (endIndex !== -1)`) when the body is unterminated. -/
def blockOfMatch (content : String) (m : RawFunMatch) : Option FunctionBlock :=
  let startLine := getLineNumber content m.startIndex
  let matchStr := jsSubstring content m.startIndex (m.startIndex + m.length)
  let parametersText := jsTrim m.params
  let parameters :=
    if parametersText = "" then []
    else ((jsSplit parametersText ",").map jsTrim).filter (fun p => p.length > 0)
  match findMatchingBrace content (m.startIndex + m.length - 1) with
  | some e =>
    some ⟨m.fname, String.mk (matchStr.data.dropLast),
          jsSubstring content m.startIndex (e + 1),
          parameters, startLine, m.startIndex, e⟩
  | none => none

def extractFunctionBlocks (content : String) : List FunctionBlock :=
  (scanFunHeaders content.data.length content.data 0).filterMap (blockOfMatch content)

/-! ### securityScanner.js — helper predicates and per-rule regexes -/

def hasCapabilityCheck (c : String) : Bool :=
  strContains c "Cap" && (strContains c "assert!" || strContains c "abort")

def hasAccessControl (c : String) : Bool :=
  strContains c "assert!" && (strContains c "sender" || strContains c "owner")

def hasTransferValidation (c : String) : Bool :=
  strContains c "assert!" || strContains c "require" ||
    (strContains c "if" && strContains c "abort")

/-- `getLineOfMatch(content, pattern)`: 0-based line of the first occurrence
of the matched string, `0` when absent. -/
def getLineOfMatch (content pattern : String) : Nat :=
  match strIndexOf content pattern with
  | none => 0
  | some i => newlinesBefore content i

/-- `getLineContent(fileContent, lineNumber)`: the trimmed 1-based line, or
the empty string when out of range (the JavaScript `?.trim() || ''`). -/
def getLineContent (fileContent : String) (lineNumber : Int) : String :=
  if lineNumber ≤ 0 then ""
  else
    match (jsSplit fileContent "\n").get? (lineNumber.toNat - 1) with
    | some l => jsTrim l
    | none => ""

/-- The regex `transfer::(public_)?transfer|coin::transfer|transfer_to_sender`
expanded to a literal alternation in backtracking order. -/
def transferAlts : List String :=
  ["transfer::public_transfer", "transfer::transfer", "coin::transfer",
   "transfer_to_sender"]

def firstTransferMatch (content : String) : Option String :=
  firstLitAlts transferAlts content

/-- The regex `(AdminCap|OwnerCap|MintCap|Authority|Cap)\s*[,)]` at one
position; the matched string includes the whitespace and closing `,`/`)`. -/
def matchCapAt (s : List Char) : Option String :=
  ["AdminCap", "OwnerCap", "MintCap", "Authority", "Cap"].findSome? fun alt =>
    if alt.data.isPrefixOf s then
      let r := s.drop alt.length
      let ws := r.takeWhile isJsSpace
      match r.dropWhile isJsSpace with
      | c :: _ =>
        if c = ',' || c = ')' then some (alt ++ String.mk ws ++ String.mk [c])
        else none
      | [] => none
    else none

def firstCapMatch (content : String) : Option String :=
  firstMatchAux matchCapAt content.data

/-- Attempt the tail `\s*:\s*&mut` of the shared-mutation regex after giving
`k` characters to the greedy `[^,\s]*`; returns total consumed characters. -/
def sharedMutTailAt (r : List Char) (k : Nat) : Option Nat :=
  let r2 := r.drop k
  let ws := r2.takeWhile isJsSpace
  match r2.dropWhile isJsSpace with
  | ':' :: r4 =>
    let ws2 := r4.takeWhile isJsSpace
    if "&mut".data.isPrefixOf (r4.drop ws2.length) then
      some (k + ws.length + 1 + ws2.length + 4)
    else none
  | _ => none

/-- Greedy backtracking over the `[^,\s]*` length, longest first. -/
def sharedMutDescend (r : List Char) : Nat → Option Nat
  | 0 => sharedMutTailAt r 0
  | k + 1 =>
    match sharedMutTailAt r (k + 1) with
    | some n => some n
    | none => sharedMutDescend r k

/-- The regex `&mut\s+[^,\s]*\s*:\s*&mut` at one position. -/
def matchSharedMutAt (s : List Char) : Option String := do
  let s1 ← dropLit "&mut".data s
  let s2 ← dropSpaces1 s1
  let run := s2.takeWhile (fun c => !(c = ',' || isJsSpace c))
  let consumed ← sharedMutDescend s2 run.length
  return String.mk (s.take (s.length - s2.length + consumed))

def firstSharedMutMatch (content : String) : Option String :=
  firstMatchAux matchSharedMutAt content.data

def isArithOp (c : Char) : Bool := c = '+' || c = '-' || c = '*' || c = '/'

/-- Index of the last arithmetic operator in a list, if any. -/
def lastOpIdx : List Char → Option Nat
  | [] => none
  | c :: rest =>
    match lastOpIdx rest with
    | some j => some (j + 1)
    | none => if isArithOp c then some 0 else none

/-- The regex `[+\-*/]\s*=|=\s*[^=]*[+\-*/]` at one position.  The second
alternative ends, after greedy backtracking, at the last operator inside the
`=`-free region following the `=`. -/
def matchArithAt (s : List Char) : Option String :=
  match s with
  | [] => none
  | c :: rest =>
    if isArithOp c then
      let ws := rest.takeWhile isJsSpace
      match rest.dropWhile isJsSpace with
      | '=' :: _ => some (String.mk (c :: (ws ++ ['='])))
      | _ => none
    else if c = '=' then
      let region := rest.takeWhile (fun d => d ≠ '=')
      match lastOpIdx region with
      | some j => some (String.mk ('=' :: region.take (j + 1)))
      | none => none
    else none

def firstArithMatch (content : String) : Option String :=
  firstMatchAux matchArithAt content.data

def createAlts : List String := ["object::new", "new_uid", "create"]

def deleteAlts : List String := ["object::delete", "delete_uid", "destroy"]

/-! ### securityScanner.js — the eight rules, one function per rule body.
Each `...Vulns` is the loop body of the corresponding `check...` method for a
single extracted function; the `check...` method is the bind over the
function list. -/

/-- Rule 1 `checkUnrestrictedPublicEntry`, per function. -/
def unrestrictedPublicEntryVulns (file : SrcFile) (func : FunctionBlock) : List Finding :=
  if strContains func.signature "public" && strContains func.signature "entry" then
    if !hasCapabilityCheck func.content && !hasAccessControl func.content then
      [mkF "unrestricted-public-entry" "Unrestricted Public Entry Function" "high"
        "Public entry function lacks proper access controls or capability verification"
        file.name func.startLine func.signature func.name
        "Add capability parameter and verify ownership using assert!(capability_owner == tx_sender)"
        "high"]
    else []
  else []

/-- Rule 2 `checkUncheckedTransfer`, per function. -/
def uncheckedTransferVulns (file : SrcFile) (func : FunctionBlock) : List Finding :=
  match firstTransferMatch func.content with
  | none => []
  | some m =>
    if !hasTransferValidation func.content && !hasCapabilityCheck func.content then
      let lineNumber : Int := getLineOfMatch func.content m + func.startLine
      [mkF "unchecked-transfer" "Unchecked Transfer Operation" "high"
        "Transfer operation without proper sender verification or access control"
        file.name lineNumber (getLineContent file.content lineNumber) m
        "Add sender verification or capability checks before performing transfers"
        "high"]
    else []

/-- Rule 3 `checkCapabilityVerification`, per function. -/
def capabilityVerificationVulns (file : SrcFile) (func : FunctionBlock) : List Finding :=
  match firstCapMatch func.content with
  | none => []
  | some m =>
    let hasOwnershipCheck := strContains func.content "assert!" &&
      (strContains func.content "owner" || strContains func.content "sender")
    if !hasOwnershipCheck then
      [mkF "capability-without-verification" "Capability Usage Without Verification" "high"
        "Function uses capability parameter without verifying ownership"
        file.name func.startLine func.signature m
        "Verify capability ownership with assert!(capability.owner == tx_context::sender(ctx))"
        "high"]
    else []

/-- Rule 4 `checkSharedObjectMutation`, per function. -/
def sharedObjectMutationVulns (file : SrcFile) (func : FunctionBlock) : List Finding :=
  match firstSharedMutMatch func.content with
  | none => []
  | some m =>
    if strContains func.signature "public" then
      let lineNumber : Int := getLineOfMatch func.content m + func.startLine
      [mkF "shared-object-mutation" "Unsafe Shared Object Mutation" "medium"
        "Public function with mutable access to shared objects"
        file.name lineNumber (getLineContent file.content lineNumber) m
        "Consider using immutable references or add proper access controls"
        "medium"]
    else []

/-- Rule 5 `checkInputValidation`, per function. -/
def inputValidationVulns (file : SrcFile) (func : FunctionBlock) : List Finding :=
  if strContains func.signature "public" && func.parameters.length > 0 then
    let hasValidation := strContains func.content "assert!" ||
      strContains func.content "require" || strContains func.content "abort"
    if !hasValidation then
      [mkF "missing-input-validation" "Missing Input Validation" "medium"
        "Public function does not validate input parameters"
        file.name func.startLine func.signature func.name
        "Add input validation using assert! or appropriate checks" "medium"]
    else []
  else []

/-- Rule 6 `checkUnsafeArithmetic`, per function. -/
def unsafeArithmeticVulns (file : SrcFile) (func : FunctionBlock) : List Finding :=
  match firstArithMatch func.content with
  | none => []
  | some m =>
    let hasOverflowCheck := strContains func.content "checked_" ||
      strContains func.content "safe_" || strContains func.content "assert!"
    if !hasOverflowCheck then
      let lineNumber : Int := getLineOfMatch func.content m + func.startLine
      [mkF "unsafe-arithmetic" "Unsafe Arithmetic Operations" "medium"
        "Arithmetic operations without overflow/underflow protection"
        file.name lineNumber (getLineContent file.content lineNumber) m
        "Use checked arithmetic operations or add overflow checks" "medium"]
    else []

/-- Rule 7 `checkResourceLeak`, per function. -/
def resourceLeakVulns (file : SrcFile) (func : FunctionBlock) : List Finding :=
  match firstLitAlts createAlts func.content with
  | none => []
  | some m =>
    if (firstLitAlts deleteAlts func.content).isNone &&
        !strContains func.content "transfer" then
      let lineNumber : Int := getLineOfMatch func.content m + func.startLine
      [mkF "resource-leak" "Potential Resource Leak" "low"
        "Resources created but not properly transferred or deleted"
        file.name lineNumber (getLineContent file.content lineNumber) m
        "Ensure created resources are properly transferred or destroyed" "medium"]
    else []

/-- Rule 8 `checkDeFiExploitPatterns`, per function: up to three findings. -/
def defiExploitVulns (file : SrcFile) (func : FunctionBlock) : List Finding :=
  (if strContains func.name "swap" && strContains func.signature "public" then
    let hasSlippageProtection := strContains func.content "min_amount" ||
      strContains func.content "slippage" || strContains func.content "minimum_out" ||
      strContains func.content "deadline"
    if !hasSlippageProtection then
      [mkF "swap-slippage-vulnerability" "Swap Slippage Vulnerability" "critical"
        "Swap function lacks slippage protection, vulnerable to sandwich attacks"
        file.name func.startLine func.signature func.name
        "Add slippage protection with min_amount_out and deadline parameters" "high"]
    else []
  else []) ++
  (if (strContains func.name "pool" || strContains func.name "liquidity") &&
      strContains func.signature "public" then
    let hasReserveCheck := strContains func.content "reserve" ||
      strContains func.content "balance_check" || strContains func.content "invariant"
    if !hasReserveCheck then
      [mkF "pool-reserve-vulnerability" "Pool Reserve Manipulation Risk" "high"
        "Pool function lacks reserve consistency validation"
        file.name func.startLine func.signature func.name
        "Add reserve balance validation and invariant checks" "medium"]
    else []
  else []) ++
  (if strContains func.name "price" && strContains func.signature "public" then
    let hasOracleProtection := strContains func.content "twap" ||
      strContains func.content "time_weighted" || strContains func.content "oracle" ||
      strContains func.content "median"
    if !hasOracleProtection then
      [mkF "price-manipulation-risk" "Price Oracle Manipulation Risk" "high"
        "Price function vulnerable to market manipulation attacks"
        file.name func.startLine func.signature func.name
        "Use time-weighted average prices (TWAP) or multiple oracle sources" "medium"]
    else []
  else [])

/-- `scanFile` with the function list made explicit; the eight rules run in
the `this.rules` order and their findings are concatenated. -/
def scanFileWith (file : SrcFile) (functions : List FunctionBlock) : List Finding :=
  functions.flatMap (unrestrictedPublicEntryVulns file) ++
  functions.flatMap (uncheckedTransferVulns file) ++
  functions.flatMap (capabilityVerificationVulns file) ++
  functions.flatMap (sharedObjectMutationVulns file) ++
  functions.flatMap (inputValidationVulns file) ++
  functions.flatMap (unsafeArithmeticVulns file) ++
  functions.flatMap (resourceLeakVulns file) ++
  functions.flatMap (defiExploitVulns file)

def scanFile (file : SrcFile) : List Finding :=
  scanFileWith file (extractFunctionBlocks file.content)

/-- `scanForVulnerabilities(parsedFiles)`: skip files with empty (falsy)
content or a parse error, scan the rest. -/
def scanForVulnerabilities (parsedFiles : List SrcFile) : List Finding :=
  parsedFiles.flatMap fun file =>
    if file.content = "" || file.parseError then [] else scanFile file

end SecurityScanner

namespace LLMScanner

open SecurityScanner

/-! ### llmEnhancedSecurityScanner.js — chunking

`splitIntoChunks` walks the lines of the file keeping a current chunk.  The
JavaScript accumulates the chunk as a string `line + '\n'` per line; here the
accumulated lines are kept as a list (`chunkContent` rebuilds the exact
string), so that the two conditions `currentChunk.length > 0` (the list is
non-empty) and `currentChunk.trim().length > 0` (some accumulated line has a
non-whitespace character) are direct.  The token estimate
`estimatedTokens + line.length * 0.25 > 1500` is the exact integer comparison
`estChars + line.length > 6000` (`estChars` counts characters). -/

structure Chunk where
  content : String
  fileName : String
  startLine : Nat
  endLine : Nat
deriving DecidableEq, Repr

/-- The string the JavaScript accumulates: each line followed by `'\n'`. -/
def chunkContent (cur : List String) : String :=
  cur.foldl (fun acc l => acc ++ l ++ "\n") ""

/-- Whether a line contributes a non-whitespace character to
`currentChunk.trim()`.  JavaScript `trim()` strips the `\s` set — for ASCII
input space, `\t`, `\n`, `\r`, `\x0b` and `\x0c` — i.e. exactly `isJsSpace`,
matching `jsTrim`. -/
def lineHasContent (l : String) : Bool := l.data.any (fun c => !isJsSpace c)

/-- Loop of `splitIntoChunks`; invariant: `curLine = curStart + cur.length`,
which is substituted directly into the argument list. -/
def splitChunksGo (fileName : String) :
    List String → List String → Nat → Nat → List Chunk
  | [], cur, curStart, _ =>
    if cur.any lineHasContent then
      [⟨chunkContent cur, fileName, curStart, curStart + cur.length - 1⟩]
    else []
  | line :: rest, cur, curStart, estChars =>
    if estChars + line.length > 6000 ∧ cur ≠ [] then
      ⟨chunkContent cur, fileName, curStart, curStart + cur.length - 1⟩ ::
        splitChunksGo fileName rest [line] (curStart + cur.length) line.length
    else
      splitChunksGo fileName rest (cur ++ [line]) curStart (estChars + line.length)

def splitIntoChunks (content fileName : String) : List Chunk :=
  splitChunksGo fileName (jsSplit content "\n") [] 1 0

/-- The state projection of `splitChunksGo` onto its accumulated chunk: the
lines sitting in `currentChunk` when the loop ends, i.e. the trailing chunk
that the final `currentChunk.trim()` check either pushes or drops.  The
recursion and its branch condition are exactly those of `splitChunksGo`. -/
def finalChunk : List String → List String → Nat → List String
  | [], cur, _ => cur
  | line :: rest, cur, estChars =>
    if estChars + line.length > 6000 ∧ cur ≠ [] then
      finalChunk rest [line] line.length
    else
      finalChunk rest (cur ++ [line]) (estChars + line.length)

/-- Number of lines of a file, i.e. `content.split('\n').length`. -/
def numLines (content : String) : Nat := (jsSplit content "\n").length

/-- `coversLines s e cs` holds when the chunk ranges partition `[s..e]` into
consecutive non-empty intervals: contiguous, non-overlapping, and together
covering every line exactly once. -/
def coversLines : Nat → Nat → List Chunk → Bool
  | s, e, [] => s == e + 1
  | s, e, c :: cs =>
    (s == c.startLine) && Nat.ble c.startLine c.endLine &&
      coversLines (c.endLine + 1) e cs

/-! ### llmEnhancedSecurityScanner.js — chunk result validation -/

/-- `adjustLineNumber(reportedLine, chunkStartLine, chunkEndLine)`; `none`
models a non-number reported value. -/
def adjustLineNumber (reportedLine : Option Int) (chunkStartLine chunkEndLine : Int) : Int :=
  match reportedLine with
  | none => chunkStartLine
  | some r =>
    if r ≤ chunkEndLine - chunkStartLine + 1 then chunkStartLine + r - 1
    else if chunkStartLine ≤ r ∧ r ≤ chunkEndLine then r
    else chunkStartLine

/-- `normalizeSeverity(severity)`; `none` and the empty string are the falsy
inputs of the JavaScript `if (!severity)`. -/
def normalizeSeverity (severity : Option String) : String :=
  match severity with
  | none => "medium"
  | some s =>
    if s = "" then "medium"
    else
      let normalized := jsToLower s
      if normalized = "high" || normalized = "critical" then "high"
      else if normalized = "medium" || normalized = "moderate" then "medium"
      else if normalized = "low" || normalized = "minor" || normalized = "info" then "low"
      else "medium"

/-- `generateVulnerabilityName(description)`. -/
def generateVulnerabilityName (description : Option String) : String :=
  match description with
  | none => "LLM-Detected Vulnerability"
  | some d =>
    if d = "" then "LLM-Detected Vulnerability"
    else
      let desc := jsToLower d
      if strContains desc "unchecked" && strContains desc "transfer" then
        "Unchecked Transfer Operation"
      else if strContains desc "access control" || strContains desc "authorization" then
        "Missing Access Control"
      else if strContains desc "overflow" || strContains desc "underflow" then
        "Arithmetic Overflow Risk"
      else if strContains desc "reentrancy" then "Reentrancy Vulnerability"
      else if strContains desc "oracle" && strContains desc "manipulation" then
        "Oracle Manipulation Risk"
      else if strContains desc "privilege" || strContains desc "capability" then
        "Privilege Escalation Risk"
      else
        let words := jsJoin " " ((jsSplit d " ").take 4)
        match words.data with
        | [] => ""
        | c :: rest => String.mk (c.toUpper :: rest)

/-- `generateRecommendation(description)`. -/
def generateRecommendation (description : Option String) : String :=
  match description with
  | none => "Review and address the identified security concern"
  | some d =>
    if d = "" then "Review and address the identified security concern"
    else
      let desc := jsToLower d
      if strContains desc "access control" || strContains desc "authorization" then
        "Add proper capability checks and assert statements"
      else if strContains desc "overflow" || strContains desc "arithmetic" then
        "Use checked arithmetic operations or add bounds validation"
      else if strContains desc "reentrancy" then
        "Implement reentrancy guards or use checks-effects-interactions pattern"
      else if strContains desc "validation" || strContains desc "input" then
        "Add input validation with assert statements"
      else "Review the flagged code and implement appropriate security measures"

/-- One vulnerability entry of the parsed LLM JSON; `none` models an absent
(or, for `line`, non-number) property. -/
structure RawVuln where
  file : Option String
  line : Option Int
  description : Option String
  severity : Option String
deriving DecidableEq, Repr

/-- The validation map of `analyzeChunkWithLLM` over the parsed entries.
`nonce` stands for the `Date.now()`/`Math.random()` id suffix, an external
effect irrelevant to the analysed properties. -/
def validateChunkVulns (nonce : String) (chunk : Chunk) (vulns : List RawVuln) :
    List Finding :=
  vulns.map fun v =>
    { id := "llm-" ++ nonce
      name := generateVulnerabilityName v.description
      severity := normalizeSeverity v.severity
      description := (match v.description with
        | none => "LLM-detected vulnerability"
        | some d => if d = "" then "LLM-detected vulnerability" else d)
      file := (match v.file with
        | none => chunk.fileName
        | some f => if f = "" then chunk.fileName else f)
      line := adjustLineNumber v.line chunk.startLine chunk.endLine
      code := ""
      matched := ""
      recommendation := generateRecommendation v.description
      confidence := "medium"
      source := "llm" }

/-! ### llmEnhancedSecurityScanner.js — deduplication -/

/-- Character kept by `replace(/[^a-z0-9\s]/g, '')` after lowercasing. -/
def isKeyChar (c : Char) : Bool :=
  ('a' ≤ c && c ≤ 'z') || ('0' ≤ c && c ≤ '9') || isJsSpace c

/-- `replace(/\s+/g, ' ')`: collapse whitespace runs to single spaces. -/
def collapseWsAux : List Char → Bool → List Char
  | [], _ => []
  | c :: rest, prevSpace =>
    if isJsSpace c then
      if prevSpace then collapseWsAux rest true
      else ' ' :: collapseWsAux rest true
    else c :: collapseWsAux rest false

/-- The normalised description used by the deduplication key. -/
def normalizeDesc (s : String) : String :=
  jsTrim (String.mk (collapseWsAux ((jsToLower s).data.filter isKeyChar) false))

/-- `generateDeduplicationKey(vuln)`: file, 5-line bucket
(`Math.floor(line/5)*5`), first three description words. -/
def generateDeduplicationKey (v : Finding) : String :=
  let normalizedDesc := normalizeDesc v.description
  let lineRange : Int := v.line.fdiv 5 * 5
  let descWords := jsJoin " " ((jsSplit normalizedDesc " ").take 3)
  v.file ++ ":" ++ toString lineRange ++ ":" ++ descWords

/-- `severityScore(severity)` with the `default: 2` branch. -/
def severityScore (severity : String) : Nat :=
  let s := jsToLower severity
  if s = "critical" then 4
  else if s = "high" then 3
  else if s = "medium" then 2
  else if s = "low" then 1
  else 2

/-- The `findIndex` + in-place merge of a duplicate: the first entry with the
same key keeps all its fields but upgrades severity (and concatenates the
descriptions) when the new finding scores strictly higher. -/
def mergeIntoFirst (key : String) (v : Finding) : List Finding → List Finding
  | [] => []
  | e :: rest =>
    if generateDeduplicationKey e = key then
      (if severityScore v.severity > severityScore e.severity then
        { e with severity := v.severity,
                 description := e.description ++ " | " ++ v.description }
      else e) :: rest
    else e :: mergeIntoFirst key v rest

/-- The deduplication loop over `allVulnerabilities`, threading the output
list and the `seenVulnerabilities` key set. -/
def dedupLoop : List Finding → List Finding → List String → List Finding
  | [], out, _ => out
  | v :: rest, out, seen =>
    let key := generateDeduplicationKey v
    if seen.contains key then
      dedupLoop rest (mergeIntoFirst key v out) seen
    else
      dedupLoop rest (out ++ [v]) (seen ++ [key])

/-- The static-side normalisation of `combineAndDeduplicateResults`: the
spread plus `source: 'static'` and the `||` defaults. -/
def normalizeStaticVuln (v : Finding) : Finding :=
  { v with
    source := "static"
    file := if v.file = "" then "unknown" else v.file
    line := if v.line = 0 then 1 else v.line
    description :=
      if v.description = "" then
        (if v.name = "" then "Static analysis vulnerability" else v.name)
      else v.description
    severity := if v.severity = "" then "medium" else v.severity }

def combineAndDeduplicateResults (staticVulns llmVulns : List Finding) : List Finding :=
  dedupLoop (staticVulns.map normalizeStaticVuln ++ llmVulns) [] []

/-! ### llmEnhancedSecurityScanner.js — scan control flow

The OpenAI call is an external capability; it is modelled by an oracle
`infer : Chunk → Option (List RawVuln)` where `none` stands for an API error
or an unparseable response (both yield zero findings for the chunk).  The
second component counts inference calls attempted. -/

def runLLMAnalysis (infer : Chunk → Option (List RawVuln)) (nonce : String)
    (parsedFiles : List SrcFile) : List Finding × Nat :=
  parsedFiles.foldl
    (fun acc file =>
      if file.content = "" || file.parseError then acc
      else
        let chunks := splitIntoChunks file.content file.name
        (acc.1 ++ chunks.flatMap (fun ch =>
          match infer ch with
          | some vulns => validateChunkVulns nonce ch vulns
          | none => []),
         acc.2 + chunks.length))
    ([], 0)

/-- `LLMEnhancedSecurityScanner.scanForVulnerabilities`: static scan, then the
LLM pass only when `llmAvailable`, then combination; returns the combined
findings and the number of inference calls attempted. -/
def scanCombined (llmAvailable : Bool) (infer : Chunk → Option (List RawVuln))
    (nonce : String) (parsedFiles : List SrcFile) : List Finding × Nat :=
  let staticVulns := SecurityScanner.scanForVulnerabilities parsedFiles
  let llm := if llmAvailable then runLLMAnalysis infer nonce parsedFiles else ([], 0)
  (combineAndDeduplicateResults staticVulns llm.1, llm.2)

/-- `llmAvailable` of the constructor: a key must be configured and differ
from the placeholder. -/
def llmAvailableOf (apiKey : Option String) : Bool :=
  match apiKey with
  | none => false
  | some k => !(k = "") && !(k = "your_openai_api_key_here")

/-- Strict lexicographic order on code-point lists (the order of JavaScript
`<` on ASCII strings). -/
def charListLt : List Char → List Char → Bool
  | [], [] => false
  | [], _ :: _ => true
  | _ :: _, [] => false
  | a :: as, b :: bs =>
    if a.toNat < b.toNat then true
    else if a.toNat = b.toNat then charListLt as bs
    else false

def strLt (a b : String) : Bool := charListLt a.data b.data

/-- Sortedness by (file, line) that C8 asserts of the final output. -/
def findingLE (a b : Finding) : Bool :=
  strLt a.file b.file || (a.file == b.file && decide (a.line ≤ b.line))

def sortedByFileLine : List Finding → Bool
  | [] => true
  | [_] => true
  | a :: b :: rest => findingLE a b && sortedByFileLine (b :: rest)

end LLMScanner

namespace TaintScanner

/-! ### enhancedSecurityScanner.js (class EnhancedSecurityScanner) — taint
propagation.

The scanner object holds a single mutable `this.taintedVariables` set reused
for the whole request: `runTaintAnalysis` clears it once at the start and then
accumulates taint across every function of every file of the request.  The
set is threaded here as an explicit `List String` (only membership is ever
queried, so insertion order and duplicates are irrelevant). -/

structure TParam where
  pname : String
  ptype : String
deriving DecidableEq, Repr

structure TFunc where
  name : String
  visibility : String
  isEntry : Bool
  parameters : List TParam
  content : String
deriving DecidableEq, Repr

structure TModule where
  functions : List TFunc
deriving DecidableEq, Repr

structure TAst where
  modules : List TModule
deriving DecidableEq, Repr

structure TFile where
  name : String
  ast : Option TAst
deriving DecidableEq, Repr

/-- One pseudo-instruction of `extractInstructions`. -/
structure Instr where
  itype : String
  code : String
  line : Nat
  target : Option String
deriving DecidableEq, Repr

/-- `extractFunctionsFromAST`: the functions of every module. -/
def extractFunctionsFromAST (ast : TAst) : List TFunc :=
  ast.modules.flatMap (·.functions)

def isPublicEntry (func : TFunc) : Bool :=
  func.visibility = "public" && func.isEntry

/-- `classifyInstruction(line)` on the trimmed line. -/
def classifyInstruction (line : String) : String :=
  let trimmed := jsTrim line
  if strContains trimmed "=" && !strContains trimmed "==" then "assignment"
  else if strContains trimmed "transfer" then "transfer"
  else if strContains trimmed "*" && strContains trimmed "=" then "arithmetic"
  else if strContains trimmed "assert!" || strContains trimmed "has_access" then "access_check"
  else "unknown"

/-- The regex `(\w+)\s*=/` at one position: a maximal `\w+` run, optional
whitespace, then `=`; only the full run can be followed by whitespace (a
shorter run ends at a word character, which is neither space nor `=`). -/
def matchTargetAt (s : List Char) : Option String :=
  match s with
  | [] => none
  | c :: rest =>
    if isWordChar c then
      let run := c :: rest.takeWhile isWordChar
      match (rest.dropWhile isWordChar).dropWhile isJsSpace with
      | '=' :: _ => some (String.mk run)
      | _ => none
    else none

/-- `extractTarget(line)`. -/
def extractTarget (line : String) : Option String :=
  firstMatchAux matchTargetAt line.data

/-- `extractInstructions(func)`: classify each line (1-based index), keeping
only classified, non-empty instructions. -/
def extractInstructions (func : TFunc) : List Instr :=
  (((jsSplit func.content "\n").enum.map fun p =>
    (⟨classifyInstruction p.2, jsTrim p.2, p.1 + 1, extractTarget p.2⟩ : Instr)).filter
    fun inst => inst.itype ≠ "unknown" && inst.code.length > 0)

/-- `isResourceType(type)`. -/
def isResourceType (t : String) : Bool :=
  strContains t "Coin" || strContains t "Pool" || strContains t "Treasury" ||
    strContains t "Balance"

/-- `tagEntryPointParameters(func)`: resource-typed parameters are added to
the shared set as `name::param`. -/
def tagEntryPointParameters (func : TFunc) (tainted : List String) : List String :=
  tainted ++ (func.parameters.filter fun p => isResourceType p.ptype).map
    (fun p => func.name ++ "::" ++ p.pname)

/-- `instructionInvolvesTainted`: checks `code.includes(t.split('::')[1])`.
When the stored symbol has no `::` (a bare assignment target), the JavaScript
index is `undefined` and `String.includes(undefined)` coerces it to the
literal string `"undefined"`. -/
def instructionInvolvesTainted (tainted : List String) (inst : Instr) : Bool :=
  tainted.any fun t =>
    match (jsSplit t "::").get? 1 with
    | some s => strContains inst.code s
    | none => strContains inst.code "undefined"

def isArithmeticOrTransfer (inst : Instr) : Bool :=
  inst.itype = "arithmetic" || inst.itype = "transfer"

/-- The taint-violation finding of `propagateTaint`. -/
def mkTaintFinding (fileName : String) (inst : Instr) : Finding :=
  mkF "taint-violation" "Tainted Resource Operation" "high"
    "Operation on tainted resource occurs before access check"
    fileName inst.line inst.code
    (match inst.target with | some t => t | none => "tainted_operation")
    "Add access control checks before operating on tainted resources" "high"

/-- The instruction loop of `propagateTaint`: `accessSeen` records whether an
`access_check` instruction appeared earlier in the list
(`hasAccessCheckBefore`), and assignments involving tainted symbols taint
their targets (`propagateTaintAssignment`). -/
def propagateGo (fileName : String) :
    List Instr → List String → Bool → List Finding × List String
  | [], tainted, _ => ([], tainted)
  | inst :: rest, tainted, accessSeen =>
    let viol :=
      if isArithmeticOrTransfer inst && instructionInvolvesTainted tainted inst
          && !accessSeen then
        [mkTaintFinding fileName inst]
      else []
    let tainted1 :=
      if inst.itype = "assignment" && instructionInvolvesTainted tainted inst then
        match inst.target with
        | some t => tainted ++ [t]
        | none => tainted
      else tainted
    let next := propagateGo fileName rest tainted1
      (accessSeen || inst.itype = "access_check")
    (viol ++ next.1, next.2)

/-- `propagateTaint(func, file)`. -/
def propagateTaint (fileName : String) (func : TFunc) (tainted : List String) :
    List Finding × List String :=
  propagateGo fileName (extractInstructions func) tainted false

/-- The per-function step of `runTaintAnalysis`: only entry points seed and
propagate. -/
def taintFuncStep (fileName : String) (acc : List Finding × List String)
    (func : TFunc) : List Finding × List String :=
  if isPublicEntry func then
    let tainted := tagEntryPointParameters func acc.2
    let res := propagateTaint fileName func tainted
    (acc.1 ++ res.1, res.2)
  else acc

/-- `runTaintAnalysis(ast, graph)` with the scanner's pre-existing mutable
set passed in explicitly; the method clears it first
(`this.taintedVariables.clear()`), then walks every file and function of the
request accumulating taint in the shared set. -/
def runTaintAnalysis (state0 : List String) (files : List TFile) :
    List Finding × List String :=
  let _ := state0
  files.foldl
    (fun acc file =>
      match file.ast with
      | none => acc
      | some ast => (extractFunctionsFromAST ast).foldl (taintFuncStep file.name) acc)
    ([], [])

end TaintScanner

namespace WasmParser

open SecurityScanner

/-! ### wasmBridge.js — the mock Move parser.

`parseMove` only throws when `parseToAST` throws, and `parseToAST` is plain
regex extraction over the source text, which is total; so the embedded
`parseMove` always returns `Except.ok`.  Of the extracted shapes only
`functions` matters to the analysed claims; modules, imports, structs and
constants are analogous total regex scans and are omitted from the model. -/

structure WParam where
  name : String
  ptype : String
deriving DecidableEq, Repr

/-- One entry of `extractFunctions`: pushed for every regex match, with
`endIndex = none` standing for the JavaScript `-1` of an unterminated body
(the record is pushed regardless). -/
structure WFunc where
  name : String
  visibility : String
  isEntry : Bool
  generics : Option String
  parameters : List WParam
  returnType : Option String
  startIndex : Nat
  endIndex : Option Nat
  line : Nat
  content : String
deriving DecidableEq, Repr

/-- The optional generics group `(<[^>]*>)?`: committed when a closing `>`
exists (shorter matches are impossible since `[^>]*` excludes `>`), skipped
otherwise. -/
def tryGenerics (s : List Char) : Option String × List Char :=
  match s with
  | '<' :: rest =>
    let inner := rest.takeWhile (fun c => c ≠ '>')
    match rest.dropWhile (fun c => c ≠ '>') with
    | '>' :: r2 => (some (String.mk inner), r2)
    | _ => (none, s)
  | _ => (none, s)

/-- The optional return-type group `(?:\s*:\s*([^{]+))?`: succeeds when a `:`
follows the whitespace and at least one non-`{` character precedes a `{`; the
greedy `\s*` donates at most down to one captured character. -/
def tryReturnType (s : List Char) : Option String × List Char :=
  let afterWs := s.dropWhile isJsSpace
  match afterWs with
  | ':' :: r =>
    let region := r.takeWhile (fun c => c ≠ '\x7b')
    if region.length ≥ 1 ∧ "\x7b".data.isPrefixOf (r.drop region.length) then
      let wsLen := min (region.takeWhile isJsSpace).length (region.length - 1)
      (some (String.mk (region.drop wsLen)), r.drop region.length)
    else (none, s)
  | _ => (none, s)

/-- The parameter regex `([a-zA-Z_][a-zA-Z0-9_]*)\s*:\s*([^,]+)` at one
position; returns (remaining, name, trimmed type).  After the colon, the
combined `\s*([^,]+)` matches any non-empty comma-free region (whitespace is
comma-free, so when the region is all whitespace the greedy `\s*` backtracks
down to leave one character to `[^,]+`); the capture is the region minus the
whitespace that `\s*` keeps. -/
def matchParamAt (s : List Char) : Option (List Char × String × String) :=
  match takeName s with
  | none => none
  | some (nm, r) =>
    match r.dropWhile isJsSpace with
    | ':' :: r3 =>
      let region := r3.takeWhile (fun c => c ≠ ',')
      if region = [] then none
      else
        let wsLen := min (region.takeWhile isJsSpace).length (region.length - 1)
        some (r3.drop region.length, nm, jsTrim (String.mk (region.drop wsLen)))
    | _ => none

/-- Global scan of `parseParameters` with fuel (each step consumes at least
one character). -/
def scanParams : Nat → List Char → List WParam
  | 0, _ => []
  | _ + 1, [] => []
  | fuel + 1, c :: rest =>
    match matchParamAt (c :: rest) with
    | some (rem, nm, ty) => ⟨nm, ty⟩ :: scanParams fuel rem
    | none => scanParams fuel rest

/-- `parseParameters(parametersText)`. -/
def parseParameters (parametersText : String) : List WParam :=
  if jsTrim parametersText = "" then []
  else scanParams parametersText.data.length parametersText.data

/-- The tail of the wasmBridge function regex after the optional
`(public\s+)?(entry\s+)?` prefixes:
`fun\s+([a-zA-Z_][a-zA-Z0-9_]*)\s*(<[^>]*>)?\s*\(([^)]*)\)(?:\s*:\s*([^{]+))?\s*\{`.
Returns (remaining, name, generics, params text, return type). -/
def matchWFunCore (s : List Char) :
    Option (List Char × String × Option String × String × Option String) := do
  let s1 ← dropLit "fun".data s
  let s2 ← dropSpaces1 s1
  let (name, s3) ← takeName s2
  let s4 := s3.dropWhile isJsSpace
  let (generics, s5) := tryGenerics s4
  let s6 := s5.dropWhile isJsSpace
  let s7 ← dropLit "(".data s6
  let params := s7.takeWhile (fun c => c ≠ ')')
  let s8 ← dropLit ")".data (s7.dropWhile (fun c => c ≠ ')'))
  let (retTy, s9) := tryReturnType s8
  let s10 := s9.dropWhile isJsSpace
  let s11 ← dropLit "\x7b".data s10
  return (s11, name, generics, String.mk params, retTy)

/-- The full wasmBridge function-header regex with its two optional captured
prefixes, greedy first. -/
def matchWFunHeader (s : List Char) :
    Option (List Char × Bool × Bool × String × Option String × String × Option String) :=
  (do
    let s1 ← dropLit "public".data s
    let s2 ← dropSpaces1 s1
    (do
      let s3 ← dropLit "entry".data s2
      let s4 ← dropSpaces1 s3
      let (rem, nm, g, p, r) ← matchWFunCore s4
      return (rem, true, true, nm, g, p, r)) <|>
    (do
      let (rem, nm, g, p, r) ← matchWFunCore s2
      return (rem, true, false, nm, g, p, r)))
  <|> (do
    let s1 ← dropLit "entry".data s
    let s2 ← dropSpaces1 s1
    let (rem, nm, g, p, r) ← matchWFunCore s2
    return (rem, false, true, nm, g, p, r))
  <|> (do
    let (rem, nm, g, p, r) ← matchWFunCore s
    return (rem, false, false, nm, g, p, r))

/-- Global scan of `extractFunctions` with fuel. -/
def scanWFuns (sourceCode : String) : Nat → List Char → Nat → List WFunc
  | 0, _, _ => []
  | _ + 1, [], _ => []
  | fuel + 1, c :: rest, i =>
    match matchWFunHeader (c :: rest) with
    | some (rem, isPub, isEnt, nm, g, p, r) =>
      let len := (c :: rest).length - rem.length
      let endIndex := findMatchingBrace sourceCode (i + len - 1)
      { name := nm
        visibility := if isPub then "public" else "private"
        isEntry := isEnt
        generics := g
        parameters := parseParameters p
        returnType := r.map jsTrim
        startIndex := i
        endIndex := endIndex
        line := getLineNumber sourceCode i
        content := match endIndex with
          | some e => jsSubstring sourceCode i (e + 1)
          | none => "" } :: scanWFuns sourceCode fuel rem (i + len)
    | none => scanWFuns sourceCode fuel rest (i + 1)

/-- `extractFunctions(sourceCode)`. -/
def extractFunctionsW (sourceCode : String) : List WFunc :=
  scanWFuns sourceCode sourceCode.data.length sourceCode.data 0

structure MoveAst where
  fileName : String
  functions : List WFunc
deriving DecidableEq, Repr

/-- `parseMove(sourceCode, fileName)`: total, hence always `Except.ok`. -/
def parseMoveW (sourceCode fileName : String) : Except String MoveAst :=
  .ok ⟨fileName, extractFunctionsW sourceCode⟩

/-- An uploaded file before parsing (the `filesToAnalyze` entries). -/
structure RawInput where
  name : String
  content : String
deriving DecidableEq, Repr

/-- One entry of `parsedFiles` as built by the parse loop of
`routes/analyze.js`: the catch branch records the message. -/
structure ParsedEntry where
  name : String
  content : String
  ast : Option MoveAst
  parseError : Option String
deriving DecidableEq, Repr

/-- The parse loop of `routes/analyze.js` (lines 46-63). -/
def parseFilesModel (files : List RawInput) : List ParsedEntry :=
  files.map fun f =>
    match parseMoveW f.content f.name with
    | .ok ast => ⟨f.name, f.content, some ast, none⟩
    | .error e => ⟨f.name, f.content, none, some e⟩

end WasmParser

/-! ### Auxiliary predicates and concrete inputs used by the claims -/

/-- Scenario A: an entry function taking coins and transferring them with no
guard of any kind. -/
def scenarioAText : String :=
  "public entry fun withdraw(pool: &mut Pool, amount: u64, ctx: &mut TxContext) \x7b\n    let c = coin::take(&mut pool.balance, amount, ctx);\n    transfer::public_transfer(c, tx_context::sender(ctx));\n\x7d"

def scenarioAFile : SecurityScanner.SrcFile := ⟨"scenario_a.move", scenarioAText, false⟩

/-- The block `extractFunctionBlocks` produces for Scenario A. -/
def scenarioAFunc : SecurityScanner.FunctionBlock :=
  { name := "withdraw"
    signature := "public entry fun withdraw(pool: &mut Pool, amount: u64, ctx: &mut TxContext) "
    content := scenarioAText
    parameters := ["pool: &mut Pool", "amount: u64", "ctx: &mut TxContext"]
    startLine := 1
    startIndex := 0
    endIndex := 194 }

/-- Scenario B: the same body preceded by an ownership assertion. -/
def scenarioBText : String :=
  "public entry fun withdraw(pool: &mut Pool, amount: u64, ctx: &mut TxContext) \x7b\n    assert!(cap.owner == tx_context::sender(ctx), 0);\n    let c = coin::take(&mut pool.balance, amount, ctx);\n    transfer::public_transfer(c, tx_context::sender(ctx));\n\x7d"

def scenarioBFile : SecurityScanner.SrcFile := ⟨"scenario_b.move", scenarioBText, false⟩

/-- The block `extractFunctionBlocks` produces for Scenario B. -/
def scenarioBFunc : SecurityScanner.FunctionBlock :=
  { name := "withdraw"
    signature := "public entry fun withdraw(pool: &mut Pool, amount: u64, ctx: &mut TxContext) "
    content := scenarioBText
    parameters := ["pool: &mut Pool", "amount: u64", "ctx: &mut TxContext"]
    startLine := 1
    startIndex := 0
    endIndex := 248 }

/-- Two adjacent public entry functions: each is flagged twice by the static
rules, and the pairs collide on the deduplication key. -/
def twoEntryText : String :=
  "public entry fun f(x: u64) \x7b foo::bar(x) \x7d\npublic entry fun g(y: u64) \x7b foo::bar(y) \x7d"

def twoEntryFile : SecurityScanner.SrcFile := ⟨"twofn.move", twoEntryText, false⟩

/-- A file whose function body never closes its brace. -/
def unterminatedText : String :=
  "module demo::pool \x7b\npublic entry fun withdraw(pool: &mut Pool) \x7b\n  let c = coin::take(&mut pool.balance);"

def unterminatedSrc : SecurityScanner.SrcFile := ⟨"bad.move", unterminatedText, false⟩

/-- Taint scenario: `f` seeds taint from its resource-typed parameter `amt`;
`g` has no resource parameter of its own but mentions the symbol `amt`. -/
def taintSeedFunc : TaintScanner.TFunc :=
  ⟨"f", "public", true, [⟨"amt", "Coin<SUI>"⟩], "fun f(amt: Coin<SUI>) \x7b\n\x7d"⟩

def taintSinkFunc : TaintScanner.TFunc :=
  ⟨"g", "public", true, [⟨"y", "u64"⟩],
   "fun g(y: u64) \x7b\ntransfer::transfer(amt, y);\n\x7d"⟩

def taintFileBoth : TaintScanner.TFile :=
  ⟨"a.move", some ⟨[⟨[taintSeedFunc, taintSinkFunc]⟩]⟩⟩

def taintFileSink : TaintScanner.TFile := ⟨"a.move", some ⟨[⟨[taintSinkFunc]⟩]⟩⟩

/-- A duplicate-keyed pair with severities low and critical (same file, lines
in the same 5-line bucket, same first three description words). -/
def lowFinding : Finding :=
  mkF "dup-1" "n1" "low" "alpha beta gamma delta" "a.move" 3 "" "" "" ""

def critFinding : Finding :=
  { mkF "dup-2" "n2" "critical" "Alpha beta gamma epsilon!" "a.move" 4 "" "" "" "" with
    source := "llm" }

/-- Distinct-key findings whose (file, line) order is reversed in the input. -/
def unsortedStatic : Finding :=
  mkF "s1" "" "high" "alpha beta gamma x" "b.move" 10 "" "" "" ""

def unsortedLlm : Finding :=
  { mkF "s2" "" "low" "delta words here" "a.move" 1 "" "" "" "" with source := "llm" }

/-- An LLM answer reporting line 0 of its chunk. -/
def zeroLineVuln : LLMScanner.RawVuln := ⟨none, some 0, some "oob", some "high"⟩

/-! ## Theorems -/

/-! ### C10 — normalizeSeverity never yields critical -/

theorem normalizeSeverity_cases (sev : Option String) :
    LLMScanner.normalizeSeverity sev = "high" ∨
      LLMScanner.normalizeSeverity sev = "medium" ∨
      LLMScanner.normalizeSeverity sev = "low" := by
  cases sev with
  | none => simp [LLMScanner.normalizeSeverity]
  | some s =>
    simp only [LLMScanner.normalizeSeverity]
    split_ifs <;> simp

/-- C10: the LLM scanner's `normalizeSeverity` maps every input — absent,
empty, or arbitrary text — to one of high/medium/low, never critical ("critical"
itself maps to "high"); hence every finding built by `analyzeChunkWithLLM`'s
validation map carries the `llm` source tag and a severity strictly below
critical. -/
theorem c10_llm_severity_below_critical (sev : Option String) (nonce : String)
    (chunk : LLMScanner.Chunk) (vulns : List LLMScanner.RawVuln) :
    (LLMScanner.normalizeSeverity sev = "high" ∨
      LLMScanner.normalizeSeverity sev = "medium" ∨
      LLMScanner.normalizeSeverity sev = "low") ∧
    LLMScanner.normalizeSeverity (some "critical") = "high" ∧
    LLMScanner.severityScore (LLMScanner.normalizeSeverity sev) <
      LLMScanner.severityScore "critical" ∧
    ∀ f ∈ LLMScanner.validateChunkVulns nonce chunk vulns,
      f.source = "llm" ∧ f.severity ≠ "critical" ∧
        (f.severity = "high" ∨ f.severity = "medium" ∨ f.severity = "low") := by
  refine ⟨normalizeSeverity_cases sev, by decide, ?_, ?_⟩
  · rcases normalizeSeverity_cases sev with h | h | h <;> rw [h] <;> decide
  · intro f hf
    simp only [LLMScanner.validateChunkVulns, List.mem_map] at hf
    obtain ⟨v, _, rfl⟩ := hf
    refine ⟨rfl, ?_, normalizeSeverity_cases v.severity⟩
    rcases normalizeSeverity_cases v.severity with h | h | h <;>
      simp only [h] <;> decide

/-! ### C5 — taint state: per-request reset, but shared across functions -/

/-- C5 counterexample: analysed together with `taintSeedFunc`, the function
`taintSinkFunc` is reported (the violation sits on its `transfer` line), yet
analysed alone in an otherwise identical request it is not — so whether a
violation is reported in one function does depend on symbols tainted while
analysing another. -/
theorem c5_counterexample :
    (TaintScanner.runTaintAnalysis [] [taintFileBoth]).1.map
        (fun v => (v.id, v.code, v.line)) =
      [("taint-violation", "transfer::transfer(amt, y);", 2)] ∧
    (TaintScanner.runTaintAnalysis [] [taintFileSink]).1 = [] := by
  constructor <;> rfl

/-- C5 amended: `runTaintAnalysis` clears the scanner's mutable taint set at
the start of each request, so its result never depends on state left by an
earlier request; within one request, however, the set is shared across all
functions (see the counterexample). -/
theorem c5_taint_reset_per_request (s1 s2 : List String)
    (files : List TaintScanner.TFile) :
    TaintScanner.runTaintAnalysis s1 files = TaintScanner.runTaintAnalysis s2 files := rfl

/-! ### C7 — unterminated bodies: no parse error, silent exclusion -/

/-- C7 counterexample: the mock parser parses the unterminated file without
error — the parse loop records `parseError = none` — so the file is never
"flagged with a parse error". -/
theorem c7_counterexample :
    (WasmParser.parseMoveW unterminatedText "bad.move").isOk = true ∧
    (WasmParser.parseFilesModel [⟨"bad.move", unterminatedText⟩]).map
        (fun e => (e.name, e.parseError)) = [("bad.move", none)] := by
  exact ⟨rfl, rfl⟩

/-- C7 amended: an unbalanced function body yields no parse error (the mock
parser is total); instead `extractFunctionBlocks` silently drops the
unterminated function, so the file contributes zero rule findings, and the
rest of the batch is scanned unchanged with no failure raised. -/
theorem c7_unterminated_isolated (rest : List SecurityScanner.SrcFile) :
    SecurityScanner.extractFunctionBlocks unterminatedText = [] ∧
    (WasmParser.parseFilesModel [⟨"bad.move", unterminatedText⟩]).map
        (fun e => e.parseError) = [none] ∧
    SecurityScanner.scanForVulnerabilities (unterminatedSrc :: rest) =
      SecurityScanner.scanForVulnerabilities rest := by
  refine ⟨rfl, rfl, ?_⟩
  have hscan :
      SecurityScanner.scanFile ⟨"bad.move", unterminatedText, false⟩ = [] := by rfl
  simp [SecurityScanner.scanForVulnerabilities, unterminatedSrc, hscan]

/-! ### C3 — duplicate-key merge keeps the first finding at max severity -/

/-- C3: when two findings collide on the deduplication key, the aggregator
returns a single finding: the first-seen one (same id, file, line), whose
severity is one of the two inputs and scores as the maximum of the two under
critical > high > medium > low. -/
theorem c3_dedup_merges_to_max (v1 v2 : Finding)
    (hkey : LLMScanner.generateDeduplicationKey v1 =
      LLMScanner.generateDeduplicationKey v2) :
    ∃ f, LLMScanner.combineAndDeduplicateResults [] [v1, v2] = [f] ∧
      f.id = v1.id ∧ f.file = v1.file ∧ f.line = v1.line ∧
      (f.severity = v1.severity ∨ f.severity = v2.severity) ∧
      LLMScanner.severityScore f.severity =
        max (LLMScanner.severityScore v1.severity)
          (LLMScanner.severityScore v2.severity) := by
  have hstep :
      LLMScanner.combineAndDeduplicateResults [] [v1, v2] =
        [if LLMScanner.severityScore v2.severity >
            LLMScanner.severityScore v1.severity then
          { v1 with severity := v2.severity,
                    description := v1.description ++ " | " ++ v2.description }
        else v1] := by
    simp [LLMScanner.combineAndDeduplicateResults, LLMScanner.dedupLoop,
      LLMScanner.mergeIntoFirst, hkey]
  by_cases hs : LLMScanner.severityScore v2.severity >
      LLMScanner.severityScore v1.severity
  · rw [if_pos hs] at hstep
    refine ⟨_, hstep, rfl, rfl, rfl, Or.inr rfl, ?_⟩
    show LLMScanner.severityScore v2.severity = _
    omega
  · rw [if_neg hs] at hstep
    refine ⟨v1, hstep, rfl, rfl, rfl, Or.inl rfl, ?_⟩
    omega

/-- C3 witness: a "low" and a "critical" finding on the same key merge into
the first-seen finding upgraded to "critical". -/
theorem c3_witness :
    (LLMScanner.generateDeduplicationKey lowFinding =
      LLMScanner.generateDeduplicationKey critFinding) ∧
    (LLMScanner.combineAndDeduplicateResults [] [lowFinding, critFinding]).map
        (fun f => (f.id, f.severity)) = [("dup-1", "critical")] ∧
    (∃ f, LLMScanner.combineAndDeduplicateResults [] [lowFinding, critFinding] = [f] ∧
      f.id = lowFinding.id ∧ f.file = lowFinding.file ∧ f.line = lowFinding.line ∧
      (f.severity = lowFinding.severity ∨ f.severity = critFinding.severity) ∧
      LLMScanner.severityScore f.severity =
        max (LLMScanner.severityScore lowFinding.severity)
          (LLMScanner.severityScore critFinding.severity)) :=
  ⟨by decide, by decide, c3_dedup_merges_to_max lowFinding critFinding (by decide)⟩

/-! ### C6 — no credential: static results only, deduplicated -/

theorem mergeIntoFirst_source_static (key : String) (v : Finding) :
    ∀ out : List Finding, (∀ e ∈ out, e.source = "static") →
      ∀ f ∈ LLMScanner.mergeIntoFirst key v out, f.source = "static" := by
  intro out
  induction out with
  | nil => simp [LLMScanner.mergeIntoFirst]
  | cons e rest ih =>
    intro h f hf
    rw [LLMScanner.mergeIntoFirst] at hf
    by_cases hk : LLMScanner.generateDeduplicationKey e = key
    · rw [if_pos hk] at hf
      rcases List.mem_cons.mp hf with h1 | h1
      · have he := h e (List.mem_cons_self e rest)
        subst h1
        split <;> simpa using he
      · exact h f (List.mem_cons_of_mem e h1)
    · rw [if_neg hk] at hf
      rcases List.mem_cons.mp hf with h1 | h1
      · exact h1 ▸ h e (List.mem_cons_self e rest)
      · exact ih (fun e2 he2 => h e2 (List.mem_cons_of_mem e he2)) f h1

theorem dedupLoop_source_static :
    ∀ (todo out : List Finding) (seen : List String),
      (∀ v ∈ todo, v.source = "static") → (∀ e ∈ out, e.source = "static") →
      ∀ f ∈ LLMScanner.dedupLoop todo out seen, f.source = "static" := by
  intro todo
  induction todo with
  | nil =>
    intro out seen _ hout f hf
    rw [LLMScanner.dedupLoop] at hf
    exact hout f hf
  | cons v rest ih =>
    intro out seen htodo hout f hf
    rw [LLMScanner.dedupLoop] at hf
    have hv := htodo v (List.mem_cons_self v rest)
    have htail : ∀ w ∈ rest, w.source = "static" :=
      fun w hw => htodo w (List.mem_cons_of_mem v hw)
    split at hf
    · exact ih _ _ htail (mergeIntoFirst_source_static _ v out hout) f hf
    · refine ih _ _ htail ?_ f hf
      intro e he
      rcases List.mem_append.mp he with h1 | h1
      · exact hout e h1
      · rw [List.mem_singleton.mp h1]; exact hv

/-- C6 amended: with no inference credential the combined scan attempts zero
inference calls and returns exactly the deduplication of the static engine's
findings, every one of them tagged with the `static` source (hence zero
`llm`-tagged findings). -/
theorem c6_llm_disabled_static_only (infer : LLMScanner.Chunk → Option (List LLMScanner.RawVuln))
    (nonce : String) (files : List SecurityScanner.SrcFile) :
    (LLMScanner.scanCombined false infer nonce files).2 = 0 ∧
    (LLMScanner.scanCombined false infer nonce files).1 =
      LLMScanner.combineAndDeduplicateResults
        (SecurityScanner.scanForVulnerabilities files) [] ∧
    ∀ f ∈ (LLMScanner.scanCombined false infer nonce files).1,
      f.source = "static" := by
  refine ⟨rfl, rfl, ?_⟩
  intro f hf
  have hf2 : f ∈ LLMScanner.dedupLoop
      ((SecurityScanner.scanForVulnerabilities files).map
        LLMScanner.normalizeStaticVuln ++ []) [] [] := hf
  refine dedupLoop_source_static _ [] [] ?_ (by simp) f hf2
  intro v hv
  rcases List.mem_append.mp hv with h1 | h1
  · obtain ⟨w, _, rfl⟩ := List.mem_map.mp h1
    rfl
  · simp at h1

/-- C6 counterexample: on a file with two adjacent flagged entry functions
the static engine reports four findings but the disabled-LLM combined scan
returns only two — deduplication merges static findings, so the output is not
"exactly the static engines' findings". -/
theorem c6_counterexample :
    (SecurityScanner.scanForVulnerabilities [twoEntryFile]).length = 4 ∧
    (LLMScanner.scanCombined false (fun _ => none) "n" [twoEntryFile]).1.length = 2 ∧
    (LLMScanner.scanCombined false (fun _ => none) "n" [twoEntryFile]).2 = 0 := by
  refine ⟨by decide, by decide, rfl⟩

/-! ### C8 — output order is first-seen, not sorted by (file, line) -/

theorem dedupLoop_fresh :
    ∀ (todo out : List Finding) (seen : List String),
      todo.Pairwise (fun a b => LLMScanner.generateDeduplicationKey a ≠
        LLMScanner.generateDeduplicationKey b) →
      (∀ v ∈ todo, LLMScanner.generateDeduplicationKey v ∉ seen) →
      LLMScanner.dedupLoop todo out seen = out ++ todo := by
  intro todo
  induction todo with
  | nil => intro out seen _ _; rw [LLMScanner.dedupLoop, List.append_nil]
  | cons v rest ih =>
    intro out seen hp hseen
    rw [LLMScanner.dedupLoop]
    have hnc : ¬(seen.contains (LLMScanner.generateDeduplicationKey v) = true) := by
      intro hc
      exact hseen v (List.mem_cons_self v rest) (List.elem_iff.mp hc)
    rw [if_neg hnc]
    have hrest := ih (out ++ [v])
      (seen ++ [LLMScanner.generateDeduplicationKey v]) (List.Pairwise.of_cons hp) ?_
    · rw [hrest, List.append_assoc, List.singleton_append]
    · intro w hw
      rw [List.mem_append]
      push_neg
      refine ⟨hseen w (List.mem_cons_of_mem v hw), ?_⟩
      intro hmem
      have hne := (List.pairwise_cons.mp hp).1 w hw
      exact hne (List.mem_singleton.mp hmem).symm

/-- C8 amended: the aggregator preserves first-seen insertion order — the
normalised static findings in engine order followed by the llm findings (here
for collision-free inputs, where nothing is dropped); no sort by (file, line)
is applied. -/
theorem c8_first_seen_order (staticVulns llmVulns : List Finding)
    (h : (staticVulns.map LLMScanner.normalizeStaticVuln ++ llmVulns).Pairwise
      (fun a b => LLMScanner.generateDeduplicationKey a ≠
        LLMScanner.generateDeduplicationKey b)) :
    LLMScanner.combineAndDeduplicateResults staticVulns llmVulns =
      staticVulns.map LLMScanner.normalizeStaticVuln ++ llmVulns := by
  exact dedupLoop_fresh _ [] [] h (by simp)

/-- C8 witness for the amended order statement, at a concrete two-finding
input. -/
theorem c8_witness :
    ([unsortedStatic].map LLMScanner.normalizeStaticVuln ++ [unsortedLlm]).Pairwise
      (fun a b => LLMScanner.generateDeduplicationKey a ≠
        LLMScanner.generateDeduplicationKey b) ∧
    LLMScanner.combineAndDeduplicateResults [unsortedStatic] [unsortedLlm] =
      [unsortedStatic].map LLMScanner.normalizeStaticVuln ++ [unsortedLlm] :=
  ⟨by decide, c8_first_seen_order [unsortedStatic] [unsortedLlm] (by decide)⟩

/-- C8 counterexample: the two-finding input yields an output whose (file,
line) pairs are ("b.move", 10) then ("a.move", 1) — not sorted by (file,
line), refuting the sortedness claim. -/
theorem c8_counterexample :
    (LLMScanner.combineAndDeduplicateResults [unsortedStatic] [unsortedLlm]).map
        (fun f => (f.file, f.line)) = [("b.move", 10), ("a.move", 1)] ∧
    LLMScanner.sortedByFileLine
      (LLMScanner.combineAndDeduplicateResults [unsortedStatic] [unsortedLlm]) = false := by
  exact ⟨by decide, by decide⟩

/-! ### C4 — chunk ranges: contiguity and coverage -/

theorem splitChunksGo_covers (fileName : String) :
    ∀ (lines cur : List String) (curStart estChars : Nat),
      (LLMScanner.finalChunk lines cur estChars).any LLMScanner.lineHasContent = true →
      LLMScanner.coversLines curStart (curStart + cur.length + lines.length - 1)
        (LLMScanner.splitChunksGo fileName lines cur curStart estChars) = true := by
  intro lines
  induction lines with
  | nil =>
    intro cur curStart est h
    rw [LLMScanner.finalChunk] at h
    have hne : cur ≠ [] := by
      intro he
      rw [he] at h
      simp at h
    have hlen : 0 < cur.length := List.length_pos.mpr hne
    rw [LLMScanner.splitChunksGo, if_pos h]
    rw [LLMScanner.coversLines, LLMScanner.coversLines]
    have e1 : curStart + cur.length - 1 + 1 = curStart + cur.length + 0 - 1 + 1 := by
      omega
    simp only [beq_self_eq_true, Bool.true_and, e1, beq_self_eq_true, Bool.and_true]
    have : Nat.ble curStart (curStart + cur.length - 1) = true := by
      rw [Nat.ble_eq]
      omega
    simp [this]
  | cons l rest ih =>
    intro cur curStart est h
    rw [LLMScanner.finalChunk] at h
    rw [LLMScanner.splitChunksGo]
    by_cases hb : est + l.length > 6000 ∧ cur ≠ []
    · rw [if_pos hb] at h ⊢
      have hlen : 0 < cur.length := List.length_pos.mpr hb.2
      have ihx := ih [l] (curStart + cur.length) l.length h
      rw [LLMScanner.coversLines]
      dsimp only
      rw [Bool.and_eq_true, Bool.and_eq_true]
      refine ⟨⟨by simp, ?_⟩, ?_⟩
      · rw [Nat.ble_eq]; omega
      · have e1 : curStart + cur.length - 1 + 1 = curStart + cur.length := by omega
        rw [e1]
        have e2 : curStart + cur.length + (l :: rest).length - 1 =
            curStart + cur.length + [l].length + rest.length - 1 := by
          simp only [List.length_cons, List.length_nil]
          omega
        rw [e2]
        exact ihx
    · rw [if_neg hb] at h ⊢
      have ihx := ih (cur ++ [l]) curStart (est + l.length) h
      have e3 : curStart + cur.length + (l :: rest).length - 1 =
          curStart + (cur ++ [l]).length + rest.length - 1 := by
        simp only [List.length_append, List.length_cons, List.length_nil]
        omega
      rw [e3]
      exact ihx

/-- C4 amended: for every source file whose final accumulated chunk — the
trailing lines after the last chunk boundary, `finalChunk` — contains a
non-whitespace character, the chunks returned by `splitIntoChunks` form
contiguous, non-overlapping line ranges starting at line 1 whose union covers
every line of the file exactly once.  When that trailing chunk is whitespace
only, the `currentChunk.trim()` check drops it and its lines are not covered
— see the counterexample — which is the only deviation from the claim. -/
theorem c4_chunks_cover_file (content fileName : String)
    (h : (LLMScanner.finalChunk (jsSplit content "\n") [] 0).any
      LLMScanner.lineHasContent = true) :
    LLMScanner.coversLines 1 (LLMScanner.numLines content)
      (LLMScanner.splitIntoChunks content fileName) = true := by
  have hx := splitChunksGo_covers fileName (jsSplit content "\n") [] 1 0 h
  have e : 1 + ([] : List String).length + (jsSplit content "\n").length - 1 =
      LLMScanner.numLines content := by
    simp only [List.length_nil, LLMScanner.numLines]
    omega
  rw [e] at hx
  rw [LLMScanner.splitIntoChunks]
  exact hx

/-- C4 witness: the trailing-newline file "x\n" (its final accumulated chunk
holds the contentful line "x") is exactly covered by its single chunk. -/
theorem c4_witness :
    (LLMScanner.finalChunk (jsSplit "x\n" "\n") [] 0).any
        LLMScanner.lineHasContent = true ∧
    LLMScanner.splitIntoChunks "x\n" "scenario_c.move" =
      [⟨"x\n\n", "scenario_c.move", 1, 2⟩] ∧
    LLMScanner.coversLines 1 (LLMScanner.numLines "x\n")
      (LLMScanner.splitIntoChunks "x\n" "scenario_c.move") = true :=
  ⟨by decide, by decide, c4_chunks_cover_file "x\n" "scenario_c.move" (by decide)⟩

/-- C4 counterexample: the non-empty file whose content is a single newline
(two whitespace-only lines) produces zero chunks, so the union of the chunk
ranges does not cover the lines of the file — the claim fails for non-empty files
whose trailing chunk is all whitespace.  The same holds for the non-empty
file consisting of one vertical-tab character, which JavaScript `trim()`
strips. -/
theorem c4_counterexample :
    ("\n" : String) ≠ "" ∧
    LLMScanner.splitIntoChunks "\n" "a.move" = [] ∧
    LLMScanner.numLines "\n" = 2 ∧
    LLMScanner.coversLines 1 (LLMScanner.numLines "\n")
      (LLMScanner.splitIntoChunks "\n" "a.move") = false ∧
    ("\x0b" : String) ≠ "" ∧
    LLMScanner.splitIntoChunks "\x0b" "a.move" = [] ∧
    LLMScanner.coversLines 1 (LLMScanner.numLines "\x0b")
      (LLMScanner.splitIntoChunks "\x0b" "a.move") = false := by
  exact ⟨by decide, by decide, by decide, by decide, by decide, by decide, by decide⟩

/-! ### C9 — line validity of semantic-analyzer findings -/

theorem splitChunksGo_bounds (fileName : String) :
    ∀ (lines cur : List String) (curStart est : Nat), 1 ≤ curStart →
      ∀ c ∈ LLMScanner.splitChunksGo fileName lines cur curStart est,
        1 ≤ c.startLine ∧ c.startLine ≤ c.endLine ∧
          c.endLine ≤ curStart + cur.length + lines.length - 1 := by
  intro lines
  induction lines with
  | nil =>
    intro cur curStart est h1 c hc
    rw [LLMScanner.splitChunksGo] at hc
    by_cases hany : cur.any LLMScanner.lineHasContent = true
    · rw [if_pos hany] at hc
      have hcur : cur ≠ [] := by
        intro he
        rw [he] at hany
        simp at hany
      have hlen : 0 < cur.length := List.length_pos.mpr hcur
      rw [List.mem_singleton] at hc
      subst hc
      refine ⟨h1, ?_, ?_⟩ <;> simp <;> omega
    · rw [if_neg hany] at hc
      simp at hc
  | cons l rest ih =>
    intro cur curStart est h1 c hc
    rw [LLMScanner.splitChunksGo] at hc
    by_cases hb : est + l.length > 6000 ∧ cur ≠ []
    · rw [if_pos hb] at hc
      rcases List.mem_cons.mp hc with h2 | h2
      · have hlen : 0 < cur.length := List.length_pos.mpr hb.2
        subst h2
        refine ⟨h1, ?_, ?_⟩ <;> simp <;> omega
      · have hx := ih [l] (curStart + cur.length) l.length (by omega) c h2
        refine ⟨hx.1, hx.2.1, ?_⟩
        have h3 := hx.2.2
        simp only [List.length_cons, List.length_nil] at h3 ⊢
        omega
    · rw [if_neg hb] at hc
      have hx := ih (cur ++ [l]) curStart (est + l.length) h1 c hc
      refine ⟨hx.1, hx.2.1, ?_⟩
      have h3 := hx.2.2
      simp only [List.length_append, List.length_cons, List.length_nil] at h3 ⊢
      omega

theorem chunk_bounds (content fileName : String) (c : LLMScanner.Chunk)
    (hc : c ∈ LLMScanner.splitIntoChunks content fileName) :
    1 ≤ c.startLine ∧ c.startLine ≤ c.endLine ∧
      c.endLine ≤ LLMScanner.numLines content := by
  have hx := splitChunksGo_bounds fileName (jsSplit content "\n") [] 1 0 (by omega) c hc
  refine ⟨hx.1, hx.2.1, ?_⟩
  have h3 := hx.2.2
  simp only [List.length_nil, LLMScanner.numLines] at h3 ⊢
  omega

/-- C9 amended: for every chunk produced by `splitIntoChunks` and every
reported value that is absent or a positive integer, `adjustLineNumber`
yields a line within the chunk's range and hence within `[1, numLines]` — a
valid line of the file.  (For non-positive reported values validity fails —
see the counterexample.) -/
theorem c9_adjusted_line_within_file (content fileName : String)
    (c : LLMScanner.Chunk) (hc : c ∈ LLMScanner.splitIntoChunks content fileName)
    (r : Option Int) (hr : ∀ v, r = some v → 1 ≤ v) :
    1 ≤ LLMScanner.adjustLineNumber r c.startLine c.endLine ∧
      LLMScanner.adjustLineNumber r c.startLine c.endLine ≤
        (LLMScanner.numLines content : Int) := by
  obtain ⟨h1, h2, h3⟩ := chunk_bounds content fileName c hc
  cases r with
  | none =>
    rw [LLMScanner.adjustLineNumber]
    constructor <;> omega
  | some v =>
    have hv := hr v rfl
    rw [LLMScanner.adjustLineNumber]
    split_ifs with ha hb
    · constructor <;> omega
    · constructor <;> omega
    · constructor <;> omega

/-- C9 witness: the real chunk of the two-line file "x\ny" and the reported
line 2 yield the valid absolute line 2. -/
theorem c9_witness :
    ((⟨"x\ny\n", "a.move", 1, 2⟩ : LLMScanner.Chunk) ∈
      LLMScanner.splitIntoChunks "x\ny" "a.move") ∧
    1 ≤ LLMScanner.adjustLineNumber (some 2)
        (⟨"x\ny\n", "a.move", 1, 2⟩ : LLMScanner.Chunk).startLine
        (⟨"x\ny\n", "a.move", 1, 2⟩ : LLMScanner.Chunk).endLine ∧
    LLMScanner.adjustLineNumber (some 2)
        (⟨"x\ny\n", "a.move", 1, 2⟩ : LLMScanner.Chunk).startLine
        (⟨"x\ny\n", "a.move", 1, 2⟩ : LLMScanner.Chunk).endLine ≤
      (LLMScanner.numLines "x\ny" : Int) := by
  have hmem : (⟨"x\ny\n", "a.move", 1, 2⟩ : LLMScanner.Chunk) ∈
      LLMScanner.splitIntoChunks "x\ny" "a.move" := by decide
  have hx := c9_adjusted_line_within_file "x\ny" "a.move"
    (⟨"x\ny\n", "a.move", 1, 2⟩ : LLMScanner.Chunk) hmem (some 2)
    (by intro v hv; cases hv; omega)
  exact ⟨hmem, hx.1, hx.2⟩

/-- C9 counterexample: on the real chunk [1,2] of the file "x\ny" an LLM
answer reporting line 0 is adjusted to line 0, and the resulting finding
references line 0 < 1 — not a valid line of any file. -/
theorem c9_counterexample :
    LLMScanner.splitIntoChunks "x\ny" "a.move" =
      [⟨"x\ny\n", "a.move", 1, 2⟩] ∧
    (LLMScanner.validateChunkVulns "t" ⟨"x\ny\n", "a.move", 1, 2⟩
        [zeroLineVuln]).map (fun f => f.line) = [0] ∧
    ¬(1 ≤ (0 : Int)) := by
  exact ⟨by decide, by decide, by decide⟩

/-! ### C1 / C2 — the transfer-related rules -/

theorem capabilityVerificationVulns_id (file : SecurityScanner.SrcFile)
    (func : SecurityScanner.FunctionBlock) :
    ∀ f ∈ SecurityScanner.capabilityVerificationVulns file func,
      f.id = "capability-without-verification" := by
  intro f hf
  unfold SecurityScanner.capabilityVerificationVulns at hf
  split at hf
  · simp at hf
  · dsimp only at hf
    split at hf
    · rw [List.mem_singleton] at hf
      subst hf
      rfl
    · simp at hf

theorem sharedObjectMutationVulns_id (file : SecurityScanner.SrcFile)
    (func : SecurityScanner.FunctionBlock) :
    ∀ f ∈ SecurityScanner.sharedObjectMutationVulns file func,
      f.id = "shared-object-mutation" := by
  intro f hf
  unfold SecurityScanner.sharedObjectMutationVulns at hf
  split at hf
  · simp at hf
  · split at hf
    · rw [List.mem_singleton] at hf
      subst hf
      rfl
    · simp at hf

theorem inputValidationVulns_id (file : SecurityScanner.SrcFile)
    (func : SecurityScanner.FunctionBlock) :
    ∀ f ∈ SecurityScanner.inputValidationVulns file func,
      f.id = "missing-input-validation" := by
  intro f hf
  unfold SecurityScanner.inputValidationVulns at hf
  split at hf
  · dsimp only at hf
    split at hf
    · rw [List.mem_singleton] at hf
      subst hf
      rfl
    · simp at hf
  · simp at hf

theorem unsafeArithmeticVulns_id (file : SecurityScanner.SrcFile)
    (func : SecurityScanner.FunctionBlock) :
    ∀ f ∈ SecurityScanner.unsafeArithmeticVulns file func,
      f.id = "unsafe-arithmetic" := by
  intro f hf
  unfold SecurityScanner.unsafeArithmeticVulns at hf
  split at hf
  · simp at hf
  · dsimp only at hf
    split at hf
    · rw [List.mem_singleton] at hf
      subst hf
      rfl
    · simp at hf

theorem resourceLeakVulns_id (file : SecurityScanner.SrcFile)
    (func : SecurityScanner.FunctionBlock) :
    ∀ f ∈ SecurityScanner.resourceLeakVulns file func,
      f.id = "resource-leak" := by
  intro f hf
  unfold SecurityScanner.resourceLeakVulns at hf
  split at hf
  · simp at hf
  · split at hf
    · rw [List.mem_singleton] at hf
      subst hf
      rfl
    · simp at hf

theorem defiExploitVulns_id (file : SecurityScanner.SrcFile)
    (func : SecurityScanner.FunctionBlock) :
    ∀ f ∈ SecurityScanner.defiExploitVulns file func,
      f.id = "swap-slippage-vulnerability" ∨ f.id = "pool-reserve-vulnerability" ∨
        f.id = "price-manipulation-risk" := by
  intro f hf
  unfold SecurityScanner.defiExploitVulns at hf
  rcases List.mem_append.mp hf with h1 | h1
  · rcases List.mem_append.mp h1 with h2 | h2
    · left
      split at h2
      · dsimp only at h2
        split at h2
        · rw [List.mem_singleton] at h2
          subst h2
          rfl
        · simp at h2
      · simp at h2
    · right; left
      split at h2
      · dsimp only at h2
        split at h2
        · rw [List.mem_singleton] at h2
          subst h2
          rfl
        · simp at h2
      · simp at h2
  · right; right
    split at h1
    · dsimp only at h1
      split at h1
      · rw [List.mem_singleton] at h1
        subst h1
        rfl
      · simp at h1
    · simp at h1

/-- C1: in any scanned file, a function whose signature is public and entry,
whose body contains a transfer-like call (one of the scanner's transfer
tokens), and which contains no access check at all (no `assert!`, `require`
or `abort`), yields both the unrestricted-entry finding and the
unchecked-transfer finding in the scan output — two distinct findings for
that function, each of severity high (hence in critical-or-high). -/
theorem c1_unguarded_transfer_two_high_findings (file : SecurityScanner.SrcFile)
    (functions : List SecurityScanner.FunctionBlock)
    (func : SecurityScanner.FunctionBlock) (hmem : func ∈ functions)
    (hpub : strContains func.signature "public" = true)
    (hentry : strContains func.signature "entry" = true)
    (htrans : (SecurityScanner.firstTransferMatch func.content).isSome = true)
    (hassert : strContains func.content "assert!" = false)
    (hrequire : strContains func.content "require" = false)
    (habort : strContains func.content "abort" = false) :
    ∃ f1 ∈ SecurityScanner.scanFileWith file functions,
      ∃ f2 ∈ SecurityScanner.scanFileWith file functions,
        f1.id = "unrestricted-public-entry" ∧ f1.severity = "high" ∧
        f1.file = file.name ∧ f1.line = func.startLine ∧ f1.matched = func.name ∧
        f2.id = "unchecked-transfer" ∧ f2.severity = "high" ∧
        f2.file = file.name ∧ f1 ≠ f2 := by
  obtain ⟨m, hm⟩ := Option.isSome_iff_exists.mp htrans
  have hcap : SecurityScanner.hasCapabilityCheck func.content = false := by
    simp [SecurityScanner.hasCapabilityCheck, hassert, habort]
  have hacc : SecurityScanner.hasAccessControl func.content = false := by
    simp [SecurityScanner.hasAccessControl, hassert]
  have hval : SecurityScanner.hasTransferValidation func.content = false := by
    simp [SecurityScanner.hasTransferValidation, hassert, hrequire, habort]
  have e1 : SecurityScanner.unrestrictedPublicEntryVulns file func =
      [mkF "unrestricted-public-entry" "Unrestricted Public Entry Function" "high"
        "Public entry function lacks proper access controls or capability verification"
        file.name func.startLine func.signature func.name
        "Add capability parameter and verify ownership using assert!(capability_owner == tx_sender)"
        "high"] := by
    simp [SecurityScanner.unrestrictedPublicEntryVulns, hpub, hentry, hcap, hacc]
  have e2 : SecurityScanner.uncheckedTransferVulns file func =
      [mkF "unchecked-transfer" "Unchecked Transfer Operation" "high"
        "Transfer operation without proper sender verification or access control"
        file.name (SecurityScanner.getLineOfMatch func.content m + func.startLine)
        (SecurityScanner.getLineContent file.content
          (SecurityScanner.getLineOfMatch func.content m + func.startLine)) m
        "Add sender verification or capability checks before performing transfers"
        "high"] := by
    rw [SecurityScanner.uncheckedTransferVulns, hm]
    simp [hval, hcap]
  have hin1 : mkF "unrestricted-public-entry" "Unrestricted Public Entry Function" "high"
      "Public entry function lacks proper access controls or capability verification"
      file.name func.startLine func.signature func.name
      "Add capability parameter and verify ownership using assert!(capability_owner == tx_sender)"
      "high" ∈ SecurityScanner.scanFileWith file functions := by
    rw [SecurityScanner.scanFileWith]
    refine List.mem_append_left _ (List.mem_append_left _ (List.mem_append_left _
      (List.mem_append_left _ (List.mem_append_left _ (List.mem_append_left _
        (List.mem_append_left _ ?_))))))
    exact List.mem_flatMap.mpr ⟨func, hmem, by rw [e1]; exact List.mem_singleton_self _⟩
  have hin2 : mkF "unchecked-transfer" "Unchecked Transfer Operation" "high"
      "Transfer operation without proper sender verification or access control"
      file.name (SecurityScanner.getLineOfMatch func.content m + func.startLine)
      (SecurityScanner.getLineContent file.content
        (SecurityScanner.getLineOfMatch func.content m + func.startLine)) m
      "Add sender verification or capability checks before performing transfers"
      "high" ∈ SecurityScanner.scanFileWith file functions := by
    rw [SecurityScanner.scanFileWith]
    refine List.mem_append_left _ (List.mem_append_left _ (List.mem_append_left _
      (List.mem_append_left _ (List.mem_append_left _ (List.mem_append_left _
        (List.mem_append_right _ ?_))))))
    exact List.mem_flatMap.mpr ⟨func, hmem, by rw [e2]; exact List.mem_singleton_self _⟩
  refine ⟨_, hin1, _, hin2, rfl, rfl, rfl, rfl, rfl, rfl, rfl, rfl, ?_⟩
  intro h
  simp [mkF, Finding.mk.injEq] at h

set_option maxRecDepth 8000 in
/-- C1 witness: Scenario A — the extracted `withdraw` block of the concrete
unguarded coin-take-and-transfer source yields both findings in the scan of
that file. -/
theorem c1_witness :
    (scenarioAFunc ∈ SecurityScanner.extractFunctionBlocks scenarioAText) ∧
    (∃ f1 ∈ SecurityScanner.scanFile scenarioAFile,
      ∃ f2 ∈ SecurityScanner.scanFile scenarioAFile,
        f1.id = "unrestricted-public-entry" ∧ f1.severity = "high" ∧
        f1.file = scenarioAFile.name ∧ f1.line = scenarioAFunc.startLine ∧
        f1.matched = scenarioAFunc.name ∧
        f2.id = "unchecked-transfer" ∧ f2.severity = "high" ∧
        f2.file = scenarioAFile.name ∧ f1 ≠ f2) := by
  have hmem : scenarioAFunc ∈ SecurityScanner.extractFunctionBlocks scenarioAText := by
    decide
  refine ⟨hmem, ?_⟩
  exact c1_unguarded_transfer_two_high_findings scenarioAFile
    (SecurityScanner.extractFunctionBlocks scenarioAText) scenarioAFunc hmem
    (by decide) (by decide) (by decide) (by decide) (by decide) (by decide)

/-- C2: a function whose body contains an access check (`assert!` together
with a `sender` reference, as in Scenario B) triggers neither the
unrestricted-entry rule nor the unchecked-transfer rule — both per-function
rule results are empty and no finding with either id appears in the scan of
that function. -/
theorem c2_access_check_suppresses_findings (file : SecurityScanner.SrcFile)
    (func : SecurityScanner.FunctionBlock)
    (ha : strContains func.content "assert!" = true)
    (hs : strContains func.content "sender" = true) :
    SecurityScanner.unrestrictedPublicEntryVulns file func = [] ∧
    SecurityScanner.uncheckedTransferVulns file func = [] ∧
    ∀ f ∈ SecurityScanner.scanFileWith file [func],
      f.id ≠ "unrestricted-public-entry" ∧ f.id ≠ "unchecked-transfer" := by
  have hacc : SecurityScanner.hasAccessControl func.content = true := by
    simp [SecurityScanner.hasAccessControl, ha, hs]
  have hval : SecurityScanner.hasTransferValidation func.content = true := by
    simp [SecurityScanner.hasTransferValidation, ha]
  have e1 : SecurityScanner.unrestrictedPublicEntryVulns file func = [] := by
    simp [SecurityScanner.unrestrictedPublicEntryVulns, hacc]
  have e2 : SecurityScanner.uncheckedTransferVulns file func = [] := by
    cases hm : SecurityScanner.firstTransferMatch func.content with
    | none => rw [SecurityScanner.uncheckedTransferVulns, hm]
    | some m =>
      rw [SecurityScanner.uncheckedTransferVulns, hm]
      simp [hval]
  refine ⟨e1, e2, ?_⟩
  intro f hf
  rw [SecurityScanner.scanFileWith] at hf
  simp only [List.flatMap_cons, List.flatMap_nil, List.append_nil,
    List.mem_append] at hf
  rcases hf with ((((((h | h) | h) | h) | h) | h) | h) | h
  · rw [e1] at h
    exact absurd h (List.not_mem_nil f)
  · rw [e2] at h
    exact absurd h (List.not_mem_nil f)
  · have hid := capabilityVerificationVulns_id file func f h
    exact ⟨by rw [hid]; decide, by rw [hid]; decide⟩
  · have hid := sharedObjectMutationVulns_id file func f h
    exact ⟨by rw [hid]; decide, by rw [hid]; decide⟩
  · have hid := inputValidationVulns_id file func f h
    exact ⟨by rw [hid]; decide, by rw [hid]; decide⟩
  · have hid := unsafeArithmeticVulns_id file func f h
    exact ⟨by rw [hid]; decide, by rw [hid]; decide⟩
  · have hid := resourceLeakVulns_id file func f h
    exact ⟨by rw [hid]; decide, by rw [hid]; decide⟩
  · rcases defiExploitVulns_id file func f h with hid | hid | hid <;>
      exact ⟨by rw [hid]; decide, by rw [hid]; decide⟩

set_option maxRecDepth 8000 in
/-- C2 witness: Scenario B — the same body preceded by
`assert!(cap.owner == tx_context::sender(ctx))` produces no transfer-related
findings. -/
theorem c2_witness :
    (scenarioBFunc ∈ SecurityScanner.extractFunctionBlocks scenarioBText) ∧
    SecurityScanner.unrestrictedPublicEntryVulns scenarioBFile scenarioBFunc = [] ∧
    SecurityScanner.uncheckedTransferVulns scenarioBFile scenarioBFunc = [] ∧
    ∀ f ∈ SecurityScanner.scanFileWith scenarioBFile [scenarioBFunc],
      f.id ≠ "unrestricted-public-entry" ∧ f.id ≠ "unchecked-transfer" := by
  refine ⟨by decide, ?_⟩
  exact c2_access_check_suppresses_findings scenarioBFile scenarioBFunc
    (by decide) (by decide)

end Suigraph
